import Mathlib

/-!
Shallow embedding of the wordslide.online grid/word-state engine.

The definitions below are translated from the repository's source:
* `Dictionary` (src/dictionary.js)
* `WordJamGame` (src/unnamed/part_002, lines 1-1179) - the validated variant:
  grid generation, selection handling, word confirmation, compaction,
  progression and found-word persistence.

JavaScript arrays become Lean lists, the `' '` empty-cell marker becomes
`emptyMark`, selection indices are JS numbers that may be negative, hence
`Int`.  `localStorage` is modelled as a most-recent-first association list:
`getItem` returns the most recent binding for a key, which matches the
overwrite semantics of `setItem`.  The JS `Set` mirrors (`foundWordsSet`,
`otherFoundWordsSet`) are always kept in sync with their companion arrays by
the source (they are only ever pushed/added together, cleared together, or
rebuilt from the array in `loadFoundWords`), so the embedding keeps just the
arrays and uses `List.contains` where the source consults the set.
-/

namespace WordSlide

/-- The empty-cell marker: the space character `' '` used by the game grid. -/
def emptyMark : Char := Char.ofNat 32

/-- JS `String.prototype.toUpperCase`, modelled as a per-character uppercase
map (written on the character list so it is kernel-computable). -/
def toUpperCase (s : String) : String := String.mk (s.data.map Char.toUpper)

/-- A letter grid: rows of cells, each cell a letter or `emptyMark`. -/
abbrev Grid := List (List Char)

/-- Model of `Dictionary.wordsOfLength` (src/dictionary.js lines 78-81): the bucket of
words of a given length.  The source stores each bucket as a JS `Set` built
from the uppercase-normalized word list, so the bucket holds the distinct
entries of that length; `dedup` models the set semantics. -/
def wordsOfLength (dict : List String) (n : Nat) : List String :=
  (dict.filter (fun w => w.length == n)).dedup

/-- Model of `Dictionary.isValidWord` (src/dictionary.js lines 86-91): case-insensitive
membership test against the length-indexed buckets. -/
def isValidWord (dict : List String) (word : String) : Bool :=
  if word.length == 0 then false
  else (wordsOfLength dict (toUpperCase word).length).contains (toUpperCase word)

/-- Helper for `buildWordFromSelection`: walk the selection indices in row
order, keeping the selected letter of each row when the index is in range and
the cell is not the empty marker (part_002 lines 246-258). -/
def selectedLettersAux : List Int → Grid → List Char
  | [], _ => []
  | _ :: _, [] => []
  | i :: is, row :: rest =>
      (if 0 ≤ i then
        match row.get? i.toNat with
        | some c => if c = emptyMark then [] else [c]
        | none => []
      else []) ++ selectedLettersAux is rest

/-- Model of `WordJamGame.buildWordFromSelection` (part_002 lines 246-258): concatenate
the letter at each row's selected column, skipping empty cells and
out-of-range indices. -/
def buildWordFromSelection (letters : Grid) (idx : List Int) : String :=
  String.mk (selectedLettersAux idx letters)

/-- The `Math.max(...rowLengths, 0)` computation of `cleanUpGrid` (part_002 line 374). -/
def maxRowLen (g : Grid) : Nat :=
  (g.map List.length).foldr max 0

/-- Pad a row with empty markers up to length `m`
(the `while`-push loop of part_002 lines 376-380). -/
def padRow (m : Nat) (row : List Char) : List Char :=
  row ++ List.replicate (m - row.length) emptyMark

/-- First step of `cleanUpGrid` (part_002 lines 366-368): drop the empty
cells of every row. -/
def strippedRows (g : Grid) : Grid :=
  g.map (fun row => row.filter (fun c => c != emptyMark))

/-- Second step of `cleanUpGrid` (part_002 line 371): drop rows left with
zero cells. -/
def keptRows (g : Grid) : Grid :=
  (strippedRows g).filter (fun row => decide (0 < row.length))

/-- Model of `WordJamGame.cleanUpGrid` (part_002 lines 364-385), grid part: filter the
empty cells out of each row, drop empty rows, and re-pad all surviving rows
to the new maximum row length.  The source method ends by calling
`validateAndFixIndices` on the selection, which only touches the index array;
in this embedding the callers apply `validateAndFixIndices` to the cleaned
grid explicitly (see `removeUsedLetters`). -/
def cleanUpGrid (g : Grid) : Grid :=
  (keptRows g).map (padRow (maxRowLen (keptRows g)))

/-- Clamping of one selection index against one row length
(part_002 lines 401-407). -/
def fixIndex (len : Nat) (i : Int) : Int :=
  if i < 0 then 0
  else if (len : Int) ≤ i then max 0 ((len : Int) - 1)
  else i

/-- The `while` loop of part_002 lines 392-394: grow the index array with
zeroes until it covers every row. -/
def extendIndices (idx : List Int) (n : Nat) : List Int :=
  idx ++ List.replicate (n - idx.length) 0

/-- The `for` loop of part_002 lines 397-408: indices for rows past the end
of the grid become 0, the rest are clamped against their row's length. -/
def fixIndicesAux : List Int → Grid → List Int
  | [], _ => []
  | _ :: is, [] => 0 :: fixIndicesAux is []
  | i :: is, row :: rest => fixIndex row.length i :: fixIndicesAux is rest

/-- Model of `WordJamGame.validateAndFixIndices` (part_002 lines 390-409). -/
def validateAndFixIndices (g : Grid) (idx : List Int) : List Int :=
  fixIndicesAux (extendIndices idx g.length) g

/-- One row of `autoAdvanceSelection` (part_002 lines 417-424): an index past
the row end steps one to the left when that lands in range. -/
def autoAdvanceOne (len : Nat) (i : Int) : Int :=
  if (len : Int) ≤ i then
    let newIndex := max 0 (i - 1)
    if newIndex < (len : Int) then newIndex else i
  else i

/-- The row loop of `autoAdvanceSelection` (part_002 lines 415-426): rows
beyond the index array, and indices beyond the grid, are left untouched. -/
def autoAdvanceAux : Grid → List Int → List Int
  | [], is => is
  | _ :: _, [] => []
  | row :: rest, i :: is => autoAdvanceOne row.length i :: autoAdvanceAux rest is

/-- Model of `WordJamGame.autoAdvanceSelection` (part_002 lines 414-428), ending with
the `validateAndFixIndices` pass. -/
def autoAdvanceSelection (g : Grid) (idx : List Int) : List Int :=
  validateAndFixIndices g (autoAdvanceAux g idx)

/-- Model of `WordJamGame.isGridEmpty` (part_002 lines 433-435). -/
def isGridEmpty (g : Grid) : Bool :=
  g.length == 0 || g.all (fun row => row.all (fun c => c == emptyMark))

/-- The marking loop of `removeUsedLetters` (part_002 lines 350-355): set
each selected in-range cell to the empty marker. -/
def markUsed : Grid → List Int → Grid
  | [], _ => []
  | row :: rest, [] => row :: rest
  | row :: rest, i :: is =>
      (if 0 ≤ i ∧ i.toNat < row.length then row.set i.toNat emptyMark else row)
        :: markUsed rest is

/-- The cell a row's selection points at, or `none` when the selection or the
row is out of range (the lookup pattern of part_002 lines 249-252). -/
def selectedCell (g : Grid) (idx : List Int) (r : Nat) : Option Char :=
  match idx.get? r, g.get? r with
  | some i, some row => if 0 ≤ i then row.get? i.toNat else none
  | _, _ => none

/-- A found-words record persisted in `localStorage`.  `loadFoundWords`
(part_002 lines 1013-1034) accepts both the legacy shape (a bare JSON array,
treated as level words) and the current shape (an object with `levelWords`
and `otherWords`). -/
inductive StoredRecord where
  | legacy (words : List String)
  | modern (levelWords otherWords : List String)
deriving DecidableEq

/-- The `localStorage` slice holding found-words records: a most-recent-first
association list, so a later `setItem` shadows an earlier one. -/
abbrev Storage := List (String × StoredRecord)

/-- Model of `localStorage.setItem` for found-words records. -/
def setItem (store : Storage) (k : String) (v : StoredRecord) : Storage :=
  (k, v) :: store

/-- Model of `localStorage.getItem` for found-words records: the most recent binding. -/
def getItem (store : Storage) (k : String) : Option StoredRecord :=
  (store.find? (fun p => p.1 == k)).map Prod.snd

/-- The `COINS_PER_WORD` constant (part_002 line 38): the flat per-word currency award. -/
def COINS_PER_WORD : Nat := 10

/-- The mutable state of `WordJamGame` (part_002 lines 7-48) that the game
logic reads and writes.  UI-only fields (drag state, result banner, DOM
handles) are omitted; `storage` stands for the found-words slice of
`localStorage`. -/
structure GameState where
  lives : Nat
  coins : Nat
  currentLevelNumber : Nat
  currentWordLength : Nat
  wordsNeededForProgression : Nat
  foundWords : List String
  otherFoundWords : List String
  totalWordsFoundInSession : Nat
  highscore : Nat
  resetCount : Nat
  letters : Grid
  selectedColumnIndices : List Int
  currentLevelWords : List String
  storage : Storage

/-- The `currentLevelWords.some(...)` test of part_002 lines 279-281:
`wordUpper` matches a level word, case-insensitively. -/
def isLevelWordOf (levelWords : List String) (wordUpper : String) : Bool :=
  levelWords.any (fun lw => toUpperCase lw == wordUpper)

/-- The filter predicate of `loadFoundWords` (part_002 lines 1028-1032):
a stored word matches a current level word, both sides uppercased. -/
def matchesLevelWord (levelWords : List String) (word : String) : Bool :=
  levelWords.any (fun lw => toUpperCase lw == toUpperCase word)

/-- Model of `WordJamGame.getFoundWordsStorageKey` (part_002 lines 994-1001): the
level identity key, from the sorted level word list.  JS `Array.sort()`
compares strings lexicographically; `List.insertionSort` under `String`'s
lexicographic order is the corresponding stable sort. -/
def getFoundWordsStorageKey (levelWords : List String) : String :=
  if levelWords.length == 0 then "wordjam_foundWords_default"
  else "wordjam_foundWords_" ++
    String.intercalate (",") (List.insertionSort (fun a b => a ≤ b) levelWords)

/-- Model of `WordJamGame.saveFoundWords` (part_002 lines 1058-1066): store the two
found-word arrays under the level identity key. -/
def saveFoundWords (s : GameState) : GameState :=
  let key := getFoundWordsStorageKey s.currentLevelWords
  let data := StoredRecord.modern s.foundWords s.otherFoundWords
  { s with storage := setItem s.storage key data }

/-- Model of `WordJamGame.loadFoundWords` (part_002 lines 1006-1053): read the record
under the level identity key; a legacy bare array is treated as level words
with no other words; level words are filtered to those matching the current
level word set; a missing (or, in the source, malformed) record yields empty
collections. -/
def loadFoundWords (s : GameState) : GameState :=
  match getItem s.storage (getFoundWordsStorageKey s.currentLevelWords) with
  | none =>
      { s with foundWords := [], otherFoundWords := [] }
  | some (StoredRecord.legacy ws) =>
      { s with foundWords := ws.filter (fun w => matchesLevelWord s.currentLevelWords w),
               otherFoundWords := [] }
  | some (StoredRecord.modern lvl oth) =>
      { s with foundWords := lvl.filter (fun w => matchesLevelWord s.currentLevelWords w),
               otherFoundWords := oth }

/-- Model of `WordJamGame.removeUsedLetters` (part_002 lines 348-359): mark the
selected cells empty, then `cleanUpGrid` - which compacts the letters and
re-validates the selection indices against the compacted grid. -/
def removeUsedLetters (g : Grid) (idx : List Int) : Grid × List Int :=
  let marked := markUsed g idx
  let cleaned := cleanUpGrid marked
  (cleaned, validateAndFixIndices cleaned idx)

/-- Which branch `confirmWord` took after accepting a word. -/
inductive AcceptKind where
  /-- All level words found: persist and hand off to the completion page
  (part_002 lines 306-316). -/
  | levelComplete
  /-- Grid became empty: `progressToNextLevel` is invoked
  (part_002 lines 319-322). -/
  | gridEmptyNext
  /-- Otherwise: auto-advance the selection and continue
  (part_002 lines 325-330). -/
  | continued
deriving DecidableEq

/-- Outcome of a `confirmWord` call. -/
inductive ConfirmOutcome where
  | noSelection
  | rejected
  | accepted (k : AcceptKind)
deriving DecidableEq

/-- The recording step of `confirmWord` (part_002 lines 276-294): a level
word not yet in the level collection is appended there and persisted; a
non-level word not yet in the other collection is appended there and
persisted; otherwise nothing is recorded. -/
def recordWord (s : GameState) (wordUpper : String) : GameState :=
  let isLevelWord := isLevelWordOf s.currentLevelWords wordUpper
  if isLevelWord && !(s.foundWords.contains wordUpper) then
    saveFoundWords { s with foundWords := s.foundWords ++ [wordUpper] }
  else if !isLevelWord && !(s.otherFoundWords.contains wordUpper) then
    saveFoundWords { s with otherFoundWords := s.otherFoundWords ++ [wordUpper] }
  else s

/-- The success branch of `confirmWord` (part_002 lines 275-330), entered
with the uppercased candidate word: record it (lines 276-294), bump the
session counter and coins (lines 296-297), consume the selected letters
(line 303), then take the completion (lines 306-316) / next-level
(lines 319-322) / auto-advance (lines 325-330) branch. -/
def acceptWord (s : GameState) (wordUpper : String) : GameState × ConfirmOutcome :=
  let s1 := recordWord s wordUpper
  let s2 := { s1 with totalWordsFoundInSession := s1.totalWordsFoundInSession + 1,
                      coins := s1.coins + COINS_PER_WORD }
  let rm := removeUsedLetters s2.letters s2.selectedColumnIndices
  let s3 := { s2 with letters := rm.1, selectedColumnIndices := rm.2 }
  if s3.wordsNeededForProgression ≤ s3.foundWords.length then
    (s3, ConfirmOutcome.accepted AcceptKind.levelComplete)
  else if isGridEmpty s3.letters then
    (s3, ConfirmOutcome.accepted AcceptKind.gridEmptyNext)
  else
    ({ s3 with selectedColumnIndices := autoAdvanceSelection s3.letters s3.selectedColumnIndices },
     ConfirmOutcome.accepted AcceptKind.continued)

/-- Model of `WordJamGame.confirmWord` (part_002 lines 263-343): build the candidate
word from the selection; reject an empty selection; accept exactly when the
word is in the dictionary and has the level's required length (the
`acceptWord` branch); otherwise reject with no state change (the validated
variant has no lives penalty). -/
def confirmWord (dict : List String) (s : GameState) : GameState × ConfirmOutcome :=
  let word := buildWordFromSelection s.letters s.selectedColumnIndices
  if word.length == 0 then
    (s, ConfirmOutcome.noSelection)
  else
    let isValid := isValidWord dict word
    let correctLength := word.length == s.currentWordLength
    if isValid && correctLength then
      acceptWord s (toUpperCase word)
    else
      (s, ConfirmOutcome.rejected)

/-- Model of `WordJamGame.progressToNextLevel` (part_002 lines 462-481): refuse with
an informational message while fewer level words are found than required;
otherwise update the highscore, bump the level number and generate the next
level.  Level generation is asynchronous and randomized, so it is injected
as the function argument `gen`; the returned flag is `false` exactly on the
refusal branch. -/
def progressToNextLevel (gen : GameState → GameState) (s : GameState) :
    GameState × Bool :=
  if s.foundWords.length < s.wordsNeededForProgression then
    (s, false)
  else
    let s1 := if s.highscore < s.totalWordsFoundInSession
              then { s with highscore := s.totalWordsFoundInSession } else s
    (gen { s1 with currentLevelNumber := s1.currentLevelNumber + 1 }, true)

/-- The hard-coded fallback word list of `generateNewLevel`
(part_002 line 182). -/
def fallbackBasicWords : List String := ["CAT", "DOG", "BAT", "HAT", "MAT"]

/-- The fallback branch of `generateNewLevel` (part_002 lines 171-188):
take 5 words of length 5 from the dictionary bucket after shuffling, or the
hard-coded list when the bucket holds fewer than 5 words.  The shuffle is
randomized in the source (`shuffleArray`, a Fisher-Yates permutation), so it
is injected as the function argument `shuffle`. -/
def chooseFallbackWords (dict : List String) (shuffle : List String → List String) :
    List String :=
  let availableWords := wordsOfLength dict 5
  if availableWords.length < 5 then fallbackBasicWords
  else (shuffle availableWords).take 5

/-- The word-selection step of `generateNewLevel` (part_002 lines 158-188):
use the fetched day's words when present and non-empty, otherwise the random
fallback. -/
def chooseLevelWords (dict : List String) (fetched : Option (List String))
    (shuffle : List String → List String) : List String :=
  match fetched with
  | none => chooseFallbackWords dict shuffle
  | some ws => if ws.length == 0 then chooseFallbackWords dict shuffle else ws

/-- Concrete grid for the C3 counterexample: one row shorter than the other,
so compaction keeps a padding cell in the first row. -/
def cexGrid : Grid := [['A', emptyMark], ['B', 'C']]

/-- Concrete selection for the C3 counterexample. -/
def cexIdx : List Int := [1, 0]

/-- The well-formedness a fixed selection index enjoys (C4): either it lies
within `[0, rowLength-1]` for its row, or it is `0` and the row is empty or
absent. -/
def indexOk (g : Grid) (r : Nat) (v : Int) : Prop :=
  (0 ≤ v ∧ v.toNat < ((g.get? r).getD []).length) ∨
    (((g.get? r).getD []).length = 0 ∧ v = 0)

/-- The property C1 states about `confirmWord`: acceptance happens exactly
when the candidate word is dictionary-valid and of the required length;
rejection leaves the state untouched (no recording); acceptance records the
word, awards the flat currency and consumes the selection. -/
def AcceptSpec (dict : List String) (s : GameState) : Prop :=
  ((∃ k, (confirmWord dict s).2 = ConfirmOutcome.accepted k) ↔
    isValidWord dict (buildWordFromSelection s.letters s.selectedColumnIndices) = true ∧
      (buildWordFromSelection s.letters s.selectedColumnIndices).length = s.currentWordLength) ∧
  (¬(isValidWord dict (buildWordFromSelection s.letters s.selectedColumnIndices) = true ∧
      (buildWordFromSelection s.letters s.selectedColumnIndices).length = s.currentWordLength) →
    confirmWord dict s = (s, ConfirmOutcome.rejected)) ∧
  ((isValidWord dict (buildWordFromSelection s.letters s.selectedColumnIndices) = true ∧
      (buildWordFromSelection s.letters s.selectedColumnIndices).length = s.currentWordLength) →
    (toUpperCase (buildWordFromSelection s.letters s.selectedColumnIndices) ∈
        (confirmWord dict s).1.foundWords ∨
      toUpperCase (buildWordFromSelection s.letters s.selectedColumnIndices) ∈
        (confirmWord dict s).1.otherFoundWords) ∧
    (confirmWord dict s).1.coins = s.coins + COINS_PER_WORD ∧
    (confirmWord dict s).1.totalWordsFoundInSession = s.totalWordsFoundInSession + 1 ∧
    (confirmWord dict s).1.letters = (removeUsedLetters s.letters s.selectedColumnIndices).1)

/-- A small concrete dictionary for witnesses. -/
def sampleDict : List String := ["CAT", "DOG"]

/-- A concrete game state whose selection spells "CAT". -/
def sampleState : GameState :=
  { lives := 3, coins := 0, currentLevelNumber := 1, currentWordLength := 3,
    wordsNeededForProgression := 2, foundWords := [], otherFoundWords := [],
    totalWordsFoundInSession := 0, highscore := 0, resetCount := 1,
    letters := [['C', 'X'], ['A', 'Y'], ['T', 'Z']],
    selectedColumnIndices := [0, 0, 0],
    currentLevelWords := ["CAT", "DOG"], storage := [] }

/-- The found-word bookkeeping invariant (C5): both collections are
duplicate-free, the level collection holds only case-insensitive matches of
the Level Word Set, and the other collection holds only non-matches (hence
the two are disjoint). -/
def FoundInv (s : GameState) : Prop :=
  s.foundWords.Nodup ∧ s.otherFoundWords.Nodup ∧
  (∀ w ∈ s.foundWords, isLevelWordOf s.currentLevelWords w = true) ∧
  (∀ w ∈ s.otherFoundWords, isLevelWordOf s.currentLevelWords w = false)

/-- The property C5 states about one `confirmWord` step: the bookkeeping
invariant is preserved, the collections stay disjoint, and each collection
either is unchanged or has exactly the new word appended at its end - in
the level collection when the word matches the Level Word Set, in the other
collection otherwise, and only when not already present. -/
def ClassifySpec (dict : List String) (s : GameState) : Prop :=
  FoundInv (confirmWord dict s).1 ∧
  (∀ w, ¬(w ∈ (confirmWord dict s).1.foundWords ∧
    w ∈ (confirmWord dict s).1.otherFoundWords)) ∧
  ((confirmWord dict s).1.foundWords = s.foundWords ∨
    ∃ u, isLevelWordOf s.currentLevelWords u = true ∧ u ∉ s.foundWords ∧
      (confirmWord dict s).1.foundWords = s.foundWords ++ [u]) ∧
  ((confirmWord dict s).1.otherFoundWords = s.otherFoundWords ∨
    ∃ u, isLevelWordOf s.currentLevelWords u = false ∧ u ∉ s.otherFoundWords ∧
      (confirmWord dict s).1.otherFoundWords = s.otherFoundWords ++ [u])

/-- A concrete game state with some found words already recorded. -/
def sampleStateFound : GameState :=
  { sampleState with foundWords := ["DOG"], otherFoundWords := ["ACT"] }

/-- The property C10 states about resubmitting an already-recorded word:
the session counter still increments, the flat currency is still awarded,
the selected letters are still consumed, the submission is accepted, and
both found-word collections are left unchanged. -/
def ResubmitSpec (dict : List String) (s : GameState) : Prop :=
  (confirmWord dict s).1.foundWords = s.foundWords ∧
  (confirmWord dict s).1.otherFoundWords = s.otherFoundWords ∧
  (confirmWord dict s).1.totalWordsFoundInSession = s.totalWordsFoundInSession + 1 ∧
  (confirmWord dict s).1.coins = s.coins + COINS_PER_WORD ∧
  (confirmWord dict s).1.letters = (removeUsedLetters s.letters s.selectedColumnIndices).1 ∧
  ∃ k, (confirmWord dict s).2 = ConfirmOutcome.accepted k

/-- A concrete game state in which the selected word "CAT" is already
recorded as a found level word. -/
def sampleStateResubmit : GameState :=
  { sampleState with foundWords := ["CAT"], wordsNeededForProgression := 3 }

/-- The property C7 states: saving the current found-word record and loading
it back under the same level identity restores it exactly, and the storage
key is a function of the level word set up to permutation (same word set,
same key). -/
def RoundTripSpec (s : GameState) : Prop :=
  ((loadFoundWords (saveFoundWords s)).foundWords = s.foundWords ∧
    (loadFoundWords (saveFoundWords s)).otherFoundWords = s.otherFoundWords) ∧
  ∀ ws1 ws2 : List String, ws1.Perm ws2 →
    getFoundWordsStorageKey ws1 = getFoundWordsStorageKey ws2

/-- The property C8 states about the fallback path of level generation:
exactly 5 words are produced; when the dictionary's length-5 bucket holds at
least 5 words they are distinct members of that bucket (drawn without
replacement), all of length 5; when the bucket is smaller the hard-coded
5-word fallback list is used. -/
def FallbackSpec (dict : List String) (fetched : Option (List String))
    (shuffle : List String → List String) : Prop :=
  (chooseLevelWords dict fetched shuffle).length = 5 ∧
  (5 ≤ (wordsOfLength dict 5).length →
    (chooseLevelWords dict fetched shuffle).Nodup ∧
    ∀ w ∈ chooseLevelWords dict fetched shuffle, w ∈ wordsOfLength dict 5 ∧ w.length = 5) ∧
  ((wordsOfLength dict 5).length < 5 →
    chooseLevelWords dict fetched shuffle = fallbackBasicWords)

/-- A concrete dictionary with at least five 5-letter words. -/
def sampleDictFive : List String :=
  ["APPLE", "BREAD", "CRANE", "DRINK", "EAGLE", "FRUIT", "CAT"]

end WordSlide

namespace WordSlide

/-! ### Structure of a compacted grid -/

theorem mem_keptRows_pos {g : Grid} {row : List Char} (h : row ∈ keptRows g) :
    0 < row.length :=
  of_decide_eq_true (List.mem_filter.mp h).2

theorem mem_keptRows_noEmpty {g : Grid} {row : List Char} (h : row ∈ keptRows g) :
    ∀ c ∈ row, c ≠ emptyMark := by
  have h' : row ∈ strippedRows g := List.mem_of_mem_filter h
  obtain ⟨orig, -, horig⟩ := List.mem_map.mp h'
  intro c hc
  rw [← horig] at hc
  exact bne_iff_ne.mp (List.mem_filter.mp hc).2

theorem le_maxRowLen {g : Grid} {row : List Char} (h : row ∈ g) :
    row.length ≤ maxRowLen g := by
  induction g with
  | nil => cases h
  | cons r rest ih =>
      have hstep : maxRowLen (r :: rest) = max r.length (maxRowLen rest) := rfl
      rcases List.mem_cons.mp h with h | h
      · rw [h, hstep]; exact le_max_left _ _
      · rw [hstep]; exact le_trans (ih h) (le_max_right _ _)

theorem length_padRow {m : Nat} {k : List Char} (h : k.length ≤ m) :
    (padRow m k).length = m := by
  simp only [padRow, List.length_append, List.length_replicate]
  omega

theorem mem_cleanUpGrid {g : Grid} {row : List Char} (h : row ∈ cleanUpGrid g) :
    ∃ k, k ∈ keptRows g ∧ row = padRow (maxRowLen (keptRows g)) k := by
  obtain ⟨k, hk, hpad⟩ := List.mem_map.mp h
  exact ⟨k, hk, hpad.symm⟩

theorem length_of_mem_cleanUpGrid {g : Grid} {row : List Char}
    (h : row ∈ cleanUpGrid g) : row.length = maxRowLen (keptRows g) := by
  obtain ⟨k, hk, rfl⟩ := mem_cleanUpGrid h
  exact length_padRow (le_maxRowLen hk)

/-- C2: after a compaction pass (`cleanUpGrid`), all rows have equal length
(shorter rows are padded with the empty marker) and no surviving row
consists entirely of empty markers - vacuously so when the compacted grid
has zero rows. -/
theorem cleanUpGrid_rectangular_no_empty_row (g : Grid) :
    (∀ r1, r1 ∈ cleanUpGrid g → ∀ r2, r2 ∈ cleanUpGrid g → r1.length = r2.length) ∧
    (∀ row, row ∈ cleanUpGrid g → ∃ c, c ∈ row ∧ c ≠ emptyMark) := by
  constructor
  · intro r1 h1 r2 h2
    rw [length_of_mem_cleanUpGrid h1, length_of_mem_cleanUpGrid h2]
  · intro row hrow
    obtain ⟨k, hk, rfl⟩ := mem_cleanUpGrid hrow
    obtain ⟨c, k2, hck⟩ := List.exists_cons_of_ne_nil (List.length_pos.mp (mem_keptRows_pos hk))
    have hcmem : c ∈ k := by rw [hck]; exact List.mem_cons_self _ _
    exact ⟨c, List.mem_append_left _ hcmem, mem_keptRows_noEmpty hk c hcmem⟩

/-- C2 witness at a concrete grid. -/
theorem cleanUpGrid_rectangular_no_empty_row_witness :
    (['A', emptyMark] ∈ cleanUpGrid [['A'], ['B', 'C']] ∧
      ['B', 'C'] ∈ cleanUpGrid [['A'], ['B', 'C']]) ∧
    ['A', emptyMark].length = ['B', 'C'].length ∧
    (∃ c, c ∈ ['A', emptyMark] ∧ c ≠ emptyMark) :=
  ⟨⟨by decide, by decide⟩,
    (cleanUpGrid_rectangular_no_empty_row [['A'], ['B', 'C']]).1 _ (by decide) _ (by decide),
    (cleanUpGrid_rectangular_no_empty_row [['A'], ['B', 'C']]).2 _ (by decide)⟩


/-! ### Idempotence of compaction -/

theorem filter_replicate_emptyMark (n : Nat) :
    (List.replicate n emptyMark).filter (fun c => c != emptyMark) = [] := by
  induction n with
  | zero => rfl
  | succ n ih => simp [List.replicate_succ, List.filter_cons, ih]

theorem filter_padRow {m : Nat} {k : List Char} (hk : ∀ c ∈ k, c ≠ emptyMark) :
    (padRow m k).filter (fun c => c != emptyMark) = k := by
  rw [padRow, List.filter_append, filter_replicate_emptyMark, List.append_nil]
  exact List.filter_eq_self.mpr (fun c hc => bne_iff_ne.mpr (hk c hc))

theorem strippedRows_cleanUpGrid (g : Grid) :
    strippedRows (cleanUpGrid g) = keptRows g := by
  rw [cleanUpGrid, strippedRows, List.map_map]
  have h : ∀ k ∈ keptRows g,
      ((fun row => row.filter (fun c => c != emptyMark)) ∘
        padRow (maxRowLen (keptRows g))) k = id k := by
    intro k hk
    exact filter_padRow (mem_keptRows_noEmpty hk)
  rw [List.map_congr_left h, List.map_id]

theorem keptRows_cleanUpGrid (g : Grid) :
    keptRows (cleanUpGrid g) = keptRows g := by
  rw [keptRows, strippedRows_cleanUpGrid]
  exact List.filter_eq_self.mpr (fun row hrow => decide_eq_true (mem_keptRows_pos hrow))

/-- C6: compaction is idempotent - applying `cleanUpGrid` to a grid that is
already the result of `cleanUpGrid` leaves every cell unchanged. -/
theorem cleanUpGrid_idempotent (g : Grid) :
    cleanUpGrid (cleanUpGrid g) = cleanUpGrid g := by
  rw [cleanUpGrid, keptRows_cleanUpGrid]
  rfl


/-! ### Selection after a compaction pass -/


/-- C3 counterexample: after `cleanUpGrid` followed by
`validateAndFixIndices`, the first row's selection index (1, in range for the
padded row `['A', ' ']`) points at a cell holding the empty marker, refuting
the claim that every selected cell holds a letter. -/
theorem selectedCell_empty_after_cleanup_cex :
    selectedCell (cleanUpGrid cexGrid)
      (validateAndFixIndices (cleanUpGrid cexGrid) cexIdx) 0 = some emptyMark := by
  decide

theorem get?_padRow_of_lt {m : Nat} {k : List Char} {j : Nat} (h : j < k.length) :
    (padRow m k).get? j = k.get? j :=
  List.get?_append h

theorem get?_padRow_of_le {m : Nat} {k : List Char} {j : Nat}
    (h1 : k.length ≤ j) (h2 : j < (padRow m k).length) :
    (padRow m k).get? j = some emptyMark := by
  rw [padRow, List.get?_append_right h1, List.get?_eq_getElem?,
    List.getElem?_replicate]
  rw [padRow, List.length_append, List.length_replicate] at h2
  rw [if_pos (by omega)]

/-- C3 (amended): after `cleanUpGrid` followed by `validateAndFixIndices`,
a row's selection index may land on an empty cell, but only on trailing
padding: whenever the selected cell holds the empty marker, every cell from
the selected column to the end of that row is the empty marker, so all the
row's letters lie strictly before the selection. -/
theorem selectedCell_empty_only_trailing_padding (g : Grid) (idx : List Int)
    (r : Nat) (i : Int) (row : List Char)
    (hrow : (cleanUpGrid g).get? r = some row)
    (hi : (validateAndFixIndices (cleanUpGrid g) idx).get? r = some i)
    (hsel : selectedCell (cleanUpGrid g)
      (validateAndFixIndices (cleanUpGrid g) idx) r = some emptyMark) :
    ∀ j, i.toNat ≤ j → j < row.length → row.get? j = some emptyMark := by
  rw [selectedCell, hi, hrow] at hsel
  change (if 0 ≤ i then row.get? i.toNat else none) = some emptyMark at hsel
  by_cases hpos : 0 ≤ i
  · rw [if_pos hpos] at hsel
    obtain ⟨k, hk, hpad⟩ := mem_cleanUpGrid (List.get?_mem hrow)
    subst hpad
    have hklen : k.length ≤ i.toNat := by
      by_contra hlt
      push_neg at hlt
      rw [get?_padRow_of_lt hlt] at hsel
      exact mem_keptRows_noEmpty hk emptyMark (List.get?_mem hsel) rfl
    intro j hij hjlen
    exact get?_padRow_of_le (le_trans hklen hij) hjlen
  · rw [if_neg hpos] at hsel
    cases hsel

/-- C3 amended witness at the concrete counterexample input. -/
theorem selectedCell_empty_only_trailing_padding_witness :
    ((cleanUpGrid cexGrid).get? 0 = some ['A', emptyMark] ∧
      (validateAndFixIndices (cleanUpGrid cexGrid) cexIdx).get? 0 = some 1 ∧
      selectedCell (cleanUpGrid cexGrid)
        (validateAndFixIndices (cleanUpGrid cexGrid) cexIdx) 0 = some emptyMark) ∧
    (∀ j, (1 : Int).toNat ≤ j → j < ['A', emptyMark].length →
      ['A', emptyMark].get? j = some emptyMark) :=
  ⟨⟨by decide, by decide, by decide⟩,
    selectedCell_empty_only_trailing_padding cexGrid cexIdx 0 1 ['A', emptyMark]
      (by decide) (by decide) (by decide)⟩

/-! ### Selection validity after validateAndFixIndices -/


theorem fixIndex_bounds (len : Nat) (i : Int) :
    (0 < len → 0 ≤ fixIndex len i ∧ (fixIndex len i).toNat < len) ∧
    (len = 0 → fixIndex len i = 0) := by
  rw [fixIndex]
  split_ifs with h1 h2 <;> refine ⟨fun h => ⟨?_, ?_⟩, fun h => ?_⟩ <;> omega

theorem fixIndicesAux_ok : ∀ (is : List Int) (g : Grid) (r : Nat) (v : Int),
    (fixIndicesAux is g).get? r = some v → indexOk g r v := by
  intro is
  induction is with
  | nil => intro g r v h; cases h
  | cons i is ih =>
      intro g r v h
      cases g with
      | nil =>
          cases r with
          | zero =>
              rw [fixIndicesAux] at h
              cases h
              exact Or.inr ⟨rfl, rfl⟩
          | succ r =>
              rw [fixIndicesAux] at h
              exact ih [] r v h
      | cons row rest =>
          cases r with
          | zero =>
              rw [fixIndicesAux] at h
              injection h with h
              subst h
              rcases Nat.eq_zero_or_pos row.length with hlen | hlen
              · exact Or.inr ⟨hlen, (fixIndex_bounds row.length i).2 hlen⟩
              · exact Or.inl ((fixIndex_bounds row.length i).1 hlen)
          | succ r =>
              rw [fixIndicesAux] at h
              exact ih rest r v h

/-- C4: after `validateAndFixIndices` (the pass every mutation path ends
with), every row's selection index is either `0` (for an empty or absent
row) or lies within `[0, rowLength-1]` for that row; out-of-range or
negative inputs are clamped, never faulted. -/
theorem validateAndFixIndices_ok (g : Grid) (idx : List Int) (r : Nat) (v : Int)
    (h : (validateAndFixIndices g idx).get? r = some v) : indexOk g r v :=
  fixIndicesAux_ok (extendIndices idx g.length) g r v h

/-- C4 witness: the out-of-range index 5 and the negative index -3 are
clamped at a concrete grid. -/
theorem validateAndFixIndices_ok_witness :
    ((validateAndFixIndices [['A'], ['B', 'C']] [5, -3, 7]).get? 1 = some 0) ∧
    indexOk [['A'], ['B', 'C']] 1 0 :=
  ⟨by decide, validateAndFixIndices_ok [['A'], ['B', 'C']] [5, -3, 7] 1 0 (by decide)⟩


/-! ### Word confirmation: acceptance, classification, resubmission -/

theorem contains_iff_mem {l : List String} {a : String} :
    l.contains a = true ↔ a ∈ l := by
  simp [List.contains, List.elem_iff]

theorem nodup_append_singleton {l : List String} {a : String}
    (h1 : l.Nodup) (h2 : a ∉ l) : (l ++ [a]).Nodup := by
  simp [List.nodup_append, h1, h2]

theorem recordWord_proj (s : GameState) (u : String) :
    (recordWord s u).letters = s.letters ∧
    (recordWord s u).selectedColumnIndices = s.selectedColumnIndices ∧
    (recordWord s u).coins = s.coins ∧
    (recordWord s u).totalWordsFoundInSession = s.totalWordsFoundInSession ∧
    (recordWord s u).currentLevelWords = s.currentLevelWords ∧
    (recordWord s u).wordsNeededForProgression = s.wordsNeededForProgression := by
  simp only [recordWord]
  split_ifs <;> exact ⟨rfl, rfl, rfl, rfl, rfl, rfl⟩

theorem recordWord_found_cases (s : GameState) (u : String) :
    ((recordWord s u).foundWords = s.foundWords ∧
      (recordWord s u).otherFoundWords = s.otherFoundWords ∧
      (isLevelWordOf s.currentLevelWords u = true → s.foundWords.contains u = true) ∧
      (isLevelWordOf s.currentLevelWords u = false → s.otherFoundWords.contains u = true)) ∨
    (isLevelWordOf s.currentLevelWords u = true ∧ s.foundWords.contains u = false ∧
      (recordWord s u).foundWords = s.foundWords ++ [u] ∧
      (recordWord s u).otherFoundWords = s.otherFoundWords) ∨
    (isLevelWordOf s.currentLevelWords u = false ∧ s.otherFoundWords.contains u = false ∧
      (recordWord s u).foundWords = s.foundWords ∧
      (recordWord s u).otherFoundWords = s.otherFoundWords ++ [u]) := by
  simp only [recordWord]
  split_ifs with h1 h2
  · rw [Bool.and_eq_true, Bool.not_eq_true'] at h1
    exact Or.inr (Or.inl ⟨h1.1, h1.2, rfl, rfl⟩)
  · rw [Bool.and_eq_true, Bool.not_eq_true', Bool.not_eq_true'] at h2
    exact Or.inr (Or.inr ⟨h2.1, h2.2, rfl, rfl⟩)
  · refine Or.inl ⟨rfl, rfl, fun hl => ?_, fun hl => ?_⟩
    · cases hc : s.foundWords.contains u
      · exact absurd (by rw [Bool.and_eq_true, Bool.not_eq_true']; exact ⟨hl, hc⟩) h1
      · rfl
    · cases ho : s.otherFoundWords.contains u
      · exact absurd
          (by rw [Bool.and_eq_true, Bool.not_eq_true', Bool.not_eq_true']; exact ⟨hl, ho⟩) h2
      · rfl

theorem recordWord_of_recorded (s : GameState) (u : String)
    (hrec : (isLevelWordOf s.currentLevelWords u = true ∧
        s.foundWords.contains u = true) ∨
      (isLevelWordOf s.currentLevelWords u = false ∧
        s.otherFoundWords.contains u = true)) :
    recordWord s u = s := by
  simp only [recordWord]
  rcases hrec with ⟨h1, h2⟩ | ⟨h1, h2⟩
  · have c1 : (isLevelWordOf s.currentLevelWords u && !s.foundWords.contains u) = false := by
      rw [h1, h2]; rfl
    rw [c1]
    have c2 : (!isLevelWordOf s.currentLevelWords u &&
        !s.otherFoundWords.contains u) = false := by
      rw [h1]; rfl
    rw [c2]
    simp
  · have c1 : (isLevelWordOf s.currentLevelWords u && !s.foundWords.contains u) = false := by
      rw [h1]; rfl
    rw [c1]
    have c2 : (!isLevelWordOf s.currentLevelWords u &&
        !s.otherFoundWords.contains u) = false := by
      rw [h1, h2]; rfl
    rw [c2]
    simp

theorem acceptWord_state (s : GameState) (u : String) :
    (acceptWord s u).1.coins = s.coins + COINS_PER_WORD ∧
    (acceptWord s u).1.totalWordsFoundInSession = s.totalWordsFoundInSession + 1 ∧
    (acceptWord s u).1.letters = (removeUsedLetters s.letters s.selectedColumnIndices).1 ∧
    (acceptWord s u).1.foundWords = (recordWord s u).foundWords ∧
    (acceptWord s u).1.otherFoundWords = (recordWord s u).otherFoundWords ∧
    (acceptWord s u).1.currentLevelWords = s.currentLevelWords := by
  obtain ⟨hL, hI, hC, hT, hW, hN⟩ := recordWord_proj s u
  simp only [acceptWord]
  split_ifs <;> simp [hL, hI, hC, hT, hW, hN]

theorem acceptWord_accepted (s : GameState) (u : String) :
    ∃ k, (acceptWord s u).2 = ConfirmOutcome.accepted k := by
  simp only [acceptWord]
  split_ifs <;> exact ⟨_, rfl⟩

theorem confirmWord_of_accept (dict : List String) (s : GameState)
    (h0 : ((buildWordFromSelection s.letters s.selectedColumnIndices).length == 0) = false)
    (hacc : (isValidWord dict (buildWordFromSelection s.letters s.selectedColumnIndices) &&
      ((buildWordFromSelection s.letters s.selectedColumnIndices).length ==
        s.currentWordLength)) = true) :
    confirmWord dict s =
      acceptWord s (toUpperCase (buildWordFromSelection s.letters s.selectedColumnIndices)) := by
  simp only [confirmWord]
  rw [h0, hacc]
  simp

theorem confirmWord_of_reject (dict : List String) (s : GameState)
    (h0 : ((buildWordFromSelection s.letters s.selectedColumnIndices).length == 0) = false)
    (hacc : (isValidWord dict (buildWordFromSelection s.letters s.selectedColumnIndices) &&
      ((buildWordFromSelection s.letters s.selectedColumnIndices).length ==
        s.currentWordLength)) = false) :
    confirmWord dict s = (s, ConfirmOutcome.rejected) := by
  simp only [confirmWord]
  rw [h0, hacc]
  simp


theorem not_mem_of_contains_eq_false {l : List String} {a : String}
    (h : l.contains a = false) : a ∉ l := by
  intro hm
  rw [contains_iff_mem.mpr hm] at h
  cases h

theorem recordWord_mem_self (s : GameState) (u : String) :
    u ∈ (recordWord s u).foundWords ∨ u ∈ (recordWord s u).otherFoundWords := by
  rcases recordWord_found_cases s u with ⟨hf, ho, himp1, himp2⟩ | ⟨-, -, hf, -⟩ | ⟨-, -, -, ho⟩
  · cases hl : isLevelWordOf s.currentLevelWords u
    · exact Or.inr (by rw [ho]; exact contains_iff_mem.mp (himp2 hl))
    · exact Or.inl (by rw [hf]; exact contains_iff_mem.mp (himp1 hl))
  · exact Or.inl (by rw [hf]; exact List.mem_append_right _ (List.mem_cons_self u []))
  · exact Or.inr (by rw [ho]; exact List.mem_append_right _ (List.mem_cons_self u []))


/-- C1: for a non-empty candidate word built from the current selection,
`confirmWord` accepts (records the word, awards currency, consumes the
selection) if and only if the word is in the dictionary and its length
equals the level's required word length; a dictionary-valid word of the
wrong length is rejected with no state change. -/
theorem confirmWord_accept_iff (dict : List String) (s : GameState)
    (hw : (buildWordFromSelection s.letters s.selectedColumnIndices).length ≠ 0) :
    AcceptSpec dict s := by
  have h0 : ((buildWordFromSelection s.letters s.selectedColumnIndices).length == 0) = false :=
    beq_eq_false_iff_ne.mpr hw
  by_cases hv : isValidWord dict (buildWordFromSelection s.letters s.selectedColumnIndices) = true
  · by_cases hl : (buildWordFromSelection s.letters s.selectedColumnIndices).length =
        s.currentWordLength
    · have hacc : (isValidWord dict (buildWordFromSelection s.letters s.selectedColumnIndices) &&
          ((buildWordFromSelection s.letters s.selectedColumnIndices).length ==
            s.currentWordLength)) = true := by
        rw [hv, beq_iff_eq.mpr hl]
        rfl
      have heq := confirmWord_of_accept dict s h0 hacc
      rw [AcceptSpec, heq]
      obtain ⟨hC, hT, hL, hF, hO, -⟩ :=
        acceptWord_state s (toUpperCase (buildWordFromSelection s.letters s.selectedColumnIndices))
      refine ⟨⟨fun _ => ⟨hv, hl⟩, fun _ => acceptWord_accepted s _⟩,
        fun hcon => absurd ⟨hv, hl⟩ hcon, fun _ => ⟨?_, hC, hT, hL⟩⟩
      rw [hF, hO]
      exact recordWord_mem_self s _
    · have hacc : (isValidWord dict (buildWordFromSelection s.letters s.selectedColumnIndices) &&
          ((buildWordFromSelection s.letters s.selectedColumnIndices).length ==
            s.currentWordLength)) = false := by
        rw [hv, beq_eq_false_iff_ne.mpr hl]
        rfl
      have heq := confirmWord_of_reject dict s h0 hacc
      rw [AcceptSpec, heq]
      refine ⟨⟨fun h => ?_, fun h => absurd h.2 hl⟩, fun _ => rfl, fun h => absurd h.2 hl⟩
      obtain ⟨k, hk⟩ := h
      cases hk
  · have hacc : (isValidWord dict (buildWordFromSelection s.letters s.selectedColumnIndices) &&
        ((buildWordFromSelection s.letters s.selectedColumnIndices).length ==
          s.currentWordLength)) = false := by
      rw [Bool.eq_false_iff.mpr hv]
      rfl
    have heq := confirmWord_of_reject dict s h0 hacc
    rw [AcceptSpec, heq]
    refine ⟨⟨fun h => ?_, fun h => absurd h.1 hv⟩, fun _ => rfl, fun h => absurd h.1 hv⟩
    obtain ⟨k, hk⟩ := h
    cases hk



/-- C1 witness at a concrete accepting submission. -/
theorem confirmWord_accept_iff_witness :
    (buildWordFromSelection sampleState.letters sampleState.selectedColumnIndices).length ≠ 0 ∧
    AcceptSpec sampleDict sampleState :=
  ⟨by decide, confirmWord_accept_iff sampleDict sampleState (by decide)⟩


theorem FoundInv_disjoint {s : GameState} (h : FoundInv s) :
    ∀ w, ¬(w ∈ s.foundWords ∧ w ∈ s.otherFoundWords) := by
  rintro w ⟨h1, h2⟩
  have e1 := h.2.2.1 w h1
  have e2 := h.2.2.2 w h2
  rw [e1] at e2
  cases e2


theorem confirmWord_fst_cases (dict : List String) (s : GameState) :
    (confirmWord dict s).1 = s ∨
    (confirmWord dict s).1 =
      (acceptWord s (toUpperCase (buildWordFromSelection s.letters s.selectedColumnIndices))).1 := by
  simp only [confirmWord]
  split_ifs <;> simp

/-- C5: every found word is recorded in exactly one of the two found-word
collections - the level-words collection when it case-insensitively matches
the Level Word Set, the other-words collection otherwise - a word already
present is never appended a second time, and insertion order is preserved
(new words go to the end). -/
theorem confirmWord_classification (dict : List String) (s : GameState)
    (hinv : FoundInv s) : ClassifySpec dict s := by
  rcases confirmWord_fst_cases dict s with h | h
  · rw [ClassifySpec, h]
    exact ⟨hinv, FoundInv_disjoint hinv, Or.inl rfl, Or.inl rfl⟩
  · rw [ClassifySpec, h]
    obtain ⟨-, -, -, hF, hO, hW⟩ :=
      acceptWord_state s (toUpperCase (buildWordFromSelection s.letters s.selectedColumnIndices))
    rcases recordWord_found_cases s
        (toUpperCase (buildWordFromSelection s.letters s.selectedColumnIndices)) with
      ⟨hf, ho, -, -⟩ | ⟨hlv, hc, hf, ho⟩ | ⟨hlv, hc, hf, ho⟩
    · have hinv2 : FoundInv (acceptWord s
          (toUpperCase (buildWordFromSelection s.letters s.selectedColumnIndices))).1 := by
        rw [FoundInv, hF, hO, hW, hf, ho]
        exact hinv
      exact ⟨hinv2, FoundInv_disjoint hinv2,
        Or.inl (by rw [hF, hf]), Or.inl (by rw [hO, ho])⟩
    · have hnm := not_mem_of_contains_eq_false hc
      have hinv2 : FoundInv (acceptWord s
          (toUpperCase (buildWordFromSelection s.letters s.selectedColumnIndices))).1 := by
        rw [FoundInv, hF, hO, hW, hf, ho]
        refine ⟨nodup_append_singleton hinv.1 hnm, hinv.2.1, ?_, hinv.2.2.2⟩
        intro w hw
        rcases List.mem_append.mp hw with hw | hw
        · exact hinv.2.2.1 w hw
        · rw [List.mem_singleton.mp hw]
          exact hlv
      exact ⟨hinv2, FoundInv_disjoint hinv2,
        Or.inr ⟨_, hlv, hnm, by rw [hF, hf]⟩, Or.inl (by rw [hO, ho])⟩
    · have hnm := not_mem_of_contains_eq_false hc
      have hinv2 : FoundInv (acceptWord s
          (toUpperCase (buildWordFromSelection s.letters s.selectedColumnIndices))).1 := by
        rw [FoundInv, hF, hO, hW, hf, ho]
        refine ⟨hinv.1, nodup_append_singleton hinv.2.1 hnm, hinv.2.2.1, ?_⟩
        intro w hw
        rcases List.mem_append.mp hw with hw | hw
        · exact hinv.2.2.2 w hw
        · rw [List.mem_singleton.mp hw]
          exact hlv
      exact ⟨hinv2, FoundInv_disjoint hinv2,
        Or.inl (by rw [hF, hf]), Or.inr ⟨_, hlv, hnm, by rw [hO, ho]⟩⟩


/-- C5 witness at a concrete state that already holds found words. -/
theorem confirmWord_classification_witness :
    FoundInv sampleStateFound ∧ ClassifySpec sampleDict sampleStateFound :=
  ⟨by unfold FoundInv; decide,
    confirmWord_classification sampleDict sampleStateFound (by unfold FoundInv; decide)⟩


/-- C10: resubmitting a valid, correct-length word that is already recorded
in its collection still increments the session words-found counter, still
awards the fixed per-word currency, and still consumes the selection, while
leaving both found-word collections unchanged. -/
theorem confirmWord_resubmit (dict : List String) (s : GameState)
    (hw : (buildWordFromSelection s.letters s.selectedColumnIndices).length ≠ 0)
    (hv : isValidWord dict (buildWordFromSelection s.letters s.selectedColumnIndices) = true)
    (hl : (buildWordFromSelection s.letters s.selectedColumnIndices).length =
      s.currentWordLength)
    (hrec : (isLevelWordOf s.currentLevelWords
          (toUpperCase (buildWordFromSelection s.letters s.selectedColumnIndices)) = true ∧
        s.foundWords.contains
          (toUpperCase (buildWordFromSelection s.letters s.selectedColumnIndices)) = true) ∨
      (isLevelWordOf s.currentLevelWords
          (toUpperCase (buildWordFromSelection s.letters s.selectedColumnIndices)) = false ∧
        s.otherFoundWords.contains
          (toUpperCase (buildWordFromSelection s.letters s.selectedColumnIndices)) = true)) :
    ResubmitSpec dict s := by
  have h0 : ((buildWordFromSelection s.letters s.selectedColumnIndices).length == 0) = false :=
    beq_eq_false_iff_ne.mpr hw
  have hacc : (isValidWord dict (buildWordFromSelection s.letters s.selectedColumnIndices) &&
      ((buildWordFromSelection s.letters s.selectedColumnIndices).length ==
        s.currentWordLength)) = true := by
    rw [hv, beq_iff_eq.mpr hl]
    rfl
  have heq := confirmWord_of_accept dict s h0 hacc
  rw [ResubmitSpec, heq]
  have hrw := recordWord_of_recorded s
    (toUpperCase (buildWordFromSelection s.letters s.selectedColumnIndices)) hrec
  obtain ⟨hC, hT, hL, hF, hO, -⟩ :=
    acceptWord_state s (toUpperCase (buildWordFromSelection s.letters s.selectedColumnIndices))
  rw [hF, hO, hrw]
  exact ⟨rfl, rfl, hT, hC, hL, acceptWord_accepted s _⟩


/-- C10 witness: resubmitting the already-recorded "CAT". -/
theorem confirmWord_resubmit_witness :
    ((buildWordFromSelection sampleStateResubmit.letters
        sampleStateResubmit.selectedColumnIndices).length ≠ 0 ∧
      isValidWord sampleDict (buildWordFromSelection sampleStateResubmit.letters
        sampleStateResubmit.selectedColumnIndices) = true ∧
      (buildWordFromSelection sampleStateResubmit.letters
        sampleStateResubmit.selectedColumnIndices).length =
          sampleStateResubmit.currentWordLength ∧
      sampleStateResubmit.foundWords.contains
        (toUpperCase (buildWordFromSelection sampleStateResubmit.letters
          sampleStateResubmit.selectedColumnIndices)) = true) ∧
    ResubmitSpec sampleDict sampleStateResubmit :=
  ⟨⟨by decide, by decide, by decide, by decide⟩,
    confirmWord_resubmit sampleDict sampleStateResubmit (by decide) (by decide) (by decide)
      (Or.inl ⟨by decide, by decide⟩)⟩


/-! ### Persistence round-trip and level identity -/

theorem getItem_setItem (store : Storage) (k : String) (v : StoredRecord) :
    getItem (setItem store k v) k = some v := by
  simp [getItem, setItem]

theorem getFoundWordsStorageKey_perm {ws1 ws2 : List String} (h : ws1.Perm ws2) :
    getFoundWordsStorageKey ws1 = getFoundWordsStorageKey ws2 := by
  have hsort : List.insertionSort (fun a b => a ≤ b) ws1 =
      List.insertionSort (fun a b => a ≤ b) ws2 :=
    List.eq_of_perm_of_sorted
      ((List.perm_insertionSort _ ws1).trans (h.trans (List.perm_insertionSort _ ws2).symm))
      (List.sorted_insertionSort _ ws1) (List.sorted_insertionSort _ ws2)
  rw [getFoundWordsStorageKey, getFoundWordsStorageKey, h.length_eq, hsort]


/-- C7: persistence round-trips for a valid record (one whose level words
all match the current Level Word Set), and the level identity key is
derived deterministically from the sorted Level Word Set. -/
theorem saveFoundWords_loadFoundWords_roundTrip (s : GameState)
    (hmatch : s.foundWords.all
      (fun w => matchesLevelWord s.currentLevelWords w) = true) :
    RoundTripSpec s := by
  constructor
  · have hget : getItem (saveFoundWords s).storage
        (getFoundWordsStorageKey (saveFoundWords s).currentLevelWords) =
        some (StoredRecord.modern s.foundWords s.otherFoundWords) :=
      getItem_setItem s.storage (getFoundWordsStorageKey s.currentLevelWords) _
    rw [loadFoundWords, hget]
    refine ⟨?_, rfl⟩
    exact List.filter_eq_self.mpr (List.all_eq_true.mp hmatch)
  · exact fun ws1 ws2 h => getFoundWordsStorageKey_perm h

/-- C7 witness at a concrete state whose found level words match its level
word set. -/
theorem saveFoundWords_loadFoundWords_roundTrip_witness :
    (sampleStateFound.foundWords.all
      (fun w => matchesLevelWord sampleStateFound.currentLevelWords w) = true) ∧
    RoundTripSpec sampleStateFound :=
  ⟨by decide, saveFoundWords_loadFoundWords_roundTrip sampleStateFound (by decide)⟩

/-! ### Fallback level generation -/


/-- C8: when the Word Source returns `none` or an empty list, level
generation synthesizes exactly 5 words of length 5 drawn without
replacement from the dictionary's length-5 bucket, or the hard-coded
5-word fallback list when that bucket holds fewer than 5 words. -/
theorem chooseLevelWords_fallback (dict : List String) (fetched : Option (List String))
    (shuffle : List String → List String)
    (hperm : (shuffle (wordsOfLength dict 5)).Perm (wordsOfLength dict 5))
    (hf : fetched = none ∨ fetched = some []) :
    FallbackSpec dict fetched shuffle := by
  have hch : chooseLevelWords dict fetched shuffle = chooseFallbackWords dict shuffle := by
    rcases hf with rfl | rfl <;> rfl
  rw [FallbackSpec, hch, chooseFallbackWords]
  by_cases hlen : (wordsOfLength dict 5).length < 5
  · rw [if_pos hlen]
    exact ⟨rfl, fun h => absurd h (by omega), fun _ => rfl⟩
  · push_neg at hlen
    rw [if_neg (by omega)]
    refine ⟨?_, fun _ => ⟨?_, ?_⟩, fun h => absurd h (by omega)⟩
    · rw [List.length_take, hperm.length_eq]
      omega
    · exact (List.take_sublist _ _).nodup (hperm.symm.nodup (List.nodup_dedup _))
    · intro w hw
      have hmem : w ∈ wordsOfLength dict 5 :=
        hperm.mem_iff.mp ((List.take_sublist _ _).subset hw)
      refine ⟨hmem, ?_⟩
      exact beq_iff_eq.mp (List.mem_filter.mp (List.mem_dedup.mp hmem)).2


/-- C8 witness: the Word Source returned `none` and the identity shuffle is
a permutation. -/
theorem chooseLevelWords_fallback_witness :
    ((id (wordsOfLength sampleDictFive 5)).Perm (wordsOfLength sampleDictFive 5) ∧
      ((none : Option (List String)) = none ∨
        (none : Option (List String)) = some [])) ∧
    FallbackSpec sampleDictFive none id :=
  ⟨⟨List.Perm.refl _, Or.inl rfl⟩,
    chooseLevelWords_fallback sampleDictFive none id (List.Perm.refl _) (Or.inl rfl)⟩

/-! ### Progression gate -/

/-- C9: whenever fewer level words are found than the required-progression
count, `progressToNextLevel` refuses progression (informational outcome,
flag `false`) and leaves the whole state - in particular the level number,
the grid and the found-word collections - unchanged. -/
theorem progressToNextLevel_refused (gen : GameState → GameState) (s : GameState)
    (h : s.foundWords.length < s.wordsNeededForProgression) :
    progressToNextLevel gen s = (s, false) ∧
    (progressToNextLevel gen s).1.currentLevelNumber = s.currentLevelNumber ∧
    (progressToNextLevel gen s).1.letters = s.letters ∧
    (progressToNextLevel gen s).1.foundWords = s.foundWords ∧
    (progressToNextLevel gen s).1.otherFoundWords = s.otherFoundWords := by
  have he : progressToNextLevel gen s = (s, false) := by
    rw [progressToNextLevel, if_pos h]
  exact ⟨he, by rw [he], by rw [he], by rw [he], by rw [he]⟩

/-- C9 witness at a concrete state with no found words yet. -/
theorem progressToNextLevel_refused_witness :
    sampleState.foundWords.length < sampleState.wordsNeededForProgression ∧
    (progressToNextLevel id sampleState = (sampleState, false) ∧
      (progressToNextLevel id sampleState).1.currentLevelNumber =
        sampleState.currentLevelNumber ∧
      (progressToNextLevel id sampleState).1.letters = sampleState.letters ∧
      (progressToNextLevel id sampleState).1.foundWords = sampleState.foundWords ∧
      (progressToNextLevel id sampleState).1.otherFoundWords =
        sampleState.otherFoundWords) :=
  ⟨by decide, progressToNextLevel_refused id sampleState (by decide)⟩

end WordSlide
